import Mathlib

/-!
# Check / Handle: a shallow embedding of package `try`

The Go package implements a short-circuit on errors with `panic` and
`recover`: `Check` panics with the wrapper `errCheck`, a deferred `Handle`
recovers it and stores the wrapped error in the named result of the function.

Go values of interface type (`any`, `error`) are the inductive `Value`.  A Go
call is a function from the `World` (the mutable memory the package touches)
to an `Outcome` (normal return or panic) and the new world.

The assertions of assert.go and the logging handler of log.go are built on
`Check`.  Library functions the package calls are either modelled after their
documentation (`strings.Join`, `runtime.Callers`, the `slog` logger as a list
of records) or taken as a parameter (`reflect.DeepEqual`, the rendering `%v`).
-/

namespace Try

/-! ## Values -/

mutual
/-- Dynamic values of the interface types `any` and `error`. -/
inductive Value where
  /-- The nil interface value. -/
  | nil : Value
  | bool (b : Bool) : Value
  | int (n : Int) : Value
  | str (s : String) : Value
  /-- An error made outside the package (`fmt.Errorf`, `errors.New`): a pointer
  with identity `id` whose `Error()` text is `text`. -/
  | errorValue (id : Nat) (text : String) : Value
  /-- A `*ErrAssertion`: the address of a record in the heap of the world. -/
  | ptr (addr : Nat) : Value
  /-- The struct `errCheck{Err: err}` of check.go. -/
  | errCheck (err : Value) : Value
  /-- A `runtime.Error` raised by the Go runtime itself. -/
  | runtimeError (text : String) : Value
  /-- A slice with element type `ty`. -/
  | slice (ty : String) (elems : Values) : Value
  /-- A struct of the named type `ty` with its field values in source order. -/
  | struct (ty : String) (fields : Values) : Value
  deriving DecidableEq
/-- Sequences of values (slice elements, struct fields). -/
inductive Values where
  | nil : Values
  | cons (v : Value) (vs : Values) : Values
  deriving DecidableEq
end

instance : Inhabited Value := ⟨Value.nil⟩

/-- Two interface values hold the same dynamic type. -/
def Value.sameType : Value → Value → Bool
  | .nil, .nil => true
  | .bool _, .bool _ => true
  | .int _, .int _ => true
  | .str _, .str _ => true
  | .errorValue _ _, .errorValue _ _ => true
  | .ptr _, .ptr _ => true
  | .errCheck _, .errCheck _ => true
  | .runtimeError _, .runtimeError _ => true
  | .slice s _, .slice t _ => s == t
  | .struct s _, .struct t _ => s == t
  | _, _ => false

mutual
/-- The dynamic type of the value is comparable with `==`: slices are not, a
struct is when all its fields are. -/
def Value.comparable : Value → Bool
  | .slice _ _ => false
  | .struct _ fields => Values.comparable fields
  | .errCheck err => Value.comparable err
  | _ => true
/-- Every value of the sequence is comparable. -/
def Values.comparable : Values → Bool
  | .nil => true
  | .cons v vs => Value.comparable v && Values.comparable vs
end

/-- Go's `a == b` on interface values: `false` when the dynamic types differ,
the comparison of the values when the type is comparable, and a run-time panic
(`none`) when both hold the same uncomparable type. -/
def goEq (a b : Value) : Option Bool :=
  if a.sameType b then
    if a.comparable && b.comparable then some (decide (a = b)) else none
  else some false

/-- Go's `strings.Join(elems, sep)`: the first element, then each further
element preceded by the separator. -/
def stringsJoin : List String → String → String
  | [], _ => ""
  | [s], _ => s
  | s :: t :: rest, sep => s ++ sep ++ stringsJoin (t :: rest) sep

/-! ## The world and the outcome of a call -/

/-- The struct `ErrAssertion` of assert.go. -/
structure ErrAssertion where
  Msg : String
  Got : Value
  Expected : Value
  deriving DecidableEq

/-- A frame of the call stack: the three frames above the function that calls
`Check` when a `Log` handler asks for its callers, and the functions of the
program, by name. -/
inductive Frame where
  | runtimeCallers : Frame
  | logFunc1 : Frame
  | check : Frame
  | fn (name : String) : Frame
  deriving DecidableEq

/-- A record as a logger writes it to its output: the level, the message and
the program counter of the `slog.Record` (`none` for the zero pc), and the
attributes of the handler that wrote it.  The time of the record is left out. -/
structure LogRecord where
  level : Int
  msg : String
  pc : Option Frame
  attrs : List (String × String)
  deriving DecidableEq

/-- A non-nil `*slog.Logger`: the levels its handler is enabled at, the output
it writes to, and the attributes added with `With`. -/
structure Logger where
  enabled : Int → Bool
  out : Nat
  attrs : List (String × String)

/-- The memory the package reads and writes. -/
structure World where
  /-- The allocated `ErrAssertion` records, by address. -/
  heap : Nat → Option ErrAssertion
  /-- The next free address of `heap`. -/
  nextAddr : Nat
  /-- The variables of type `error` whose address is taken (named results). -/
  errs : Nat → Value
  /-- The next free address of `errs`. -/
  nextErr : Nat
  /-- A log that observing handlers append to: (position, argument). -/
  trace : List (Nat × Value)
  /-- The logger `slog.Default()` returns. -/
  defaultLogger : Logger
  /-- The records written so far to each output. -/
  outputs : Nat → List LogRecord
  /-- The frames of the function of the program that is running, the one that
  calls `Check`, and of its callers, the innermost first; the frames of `Check`
  and of a handler above them are added where the stack is read. -/
  stack : List Frame

/-- The empty world: the default logger is enabled from `slog.LevelInfo` on and
writes to output 0. -/
def World.empty : World :=
  { heap := fun _ => none, nextAddr := 0, errs := fun _ => Value.nil, nextErr := 0, trace := [],
    defaultLogger := { enabled := fun level => decide (0 ≤ level), out := 0, attrs := [] },
    outputs := fun _ => [], stack := [] }

/-- How a call ends: a normal return or a panic with a value. -/
inductive Outcome (α : Type) where
  | returns (a : α) : Outcome α
  | panics (v : Value) : Outcome α
  deriving DecidableEq

/-- The call ended by a panic. -/
def Outcome.isPanic {α : Type} : Outcome α → Bool
  | Outcome.returns _ => false
  | Outcome.panics _ => true

/-- A Go call: from the world before to the outcome and the world after. -/
def Go (α : Type) : Type := World → Outcome α × World

/-- Normal return. -/
def Go.pure {α : Type} (a : α) : Go α := fun w => (Outcome.returns a, w)

/-- Sequencing: a panic of the first call skips the rest. -/
def Go.bind {α β : Type} (m : Go α) (f : α → Go β) : Go β := fun w =>
  match m w with
  | (Outcome.returns a, w1) => f a w1
  | (Outcome.panics v, w1) => (Outcome.panics v, w1)

instance : Monad Go where
  pure := Go.pure
  bind := Go.bind

/-- The builtin `panic(v)`. -/
def throwPanic {α : Type} (v : Value) : Go α := fun w => (Outcome.panics v, w)

/-- The assignment `*p = v` to an error variable. -/
def storeErr (p : Nat) (v : Value) : Go Unit := fun w =>
  (Outcome.returns (), { w with errs := fun i => if i = p then v else w.errs i })

/-- A fresh error variable, initialised to nil as Go does; returns its address. -/
def newErr : Go Nat := fun w =>
  (Outcome.returns w.nextErr,
    { w with nextErr := w.nextErr + 1,
             errs := fun i => if i = w.nextErr then Value.nil else w.errs i })

/-- The allocation `&ErrAssertion{...}`; returns the pointer. -/
def newErrAssertion (r : ErrAssertion) : Go Value := fun w =>
  (Outcome.returns (Value.ptr w.nextAddr),
    { w with nextAddr := w.nextAddr + 1,
             heap := fun i => if i = w.nextAddr then some r else w.heap i })

/-! ## check.go -/

/-- The type `HandlerFunc func(err error) error`: a Go function, which may
change the world and may itself panic. -/
abbrev HandlerFunc : Type := Value → Go Value

/-- The function `Check(err error, handlers ...HandlerFunc)`: the loop over the
handlers with its early stop, then the panic with `errCheck`. -/
def Check : Value → List HandlerFunc → Go Unit
  | err, [] =>
    if err ≠ Value.nil then throwPanic (Value.errCheck err) else pure ()
  | err, h :: handlers =>
    if err = Value.nil then pure ()
    else do
      let err1 ← h err
      Check err1 handlers

/-- The builtin `recover()` called by a deferred function: the value of the
panic in flight, nil when the function is not panicking. -/
def recover : Option Value → Value
  | none => Value.nil
  | some v => v

/-- The function `Handle(errOut *error)`, run as a deferred call; `panicking`
is the panic in flight when it runs, `errOut` is `none` for a nil pointer. -/
def Handle (errOut : Option Nat) (panicking : Option Value) : Go Unit :=
  match recover panicking with
  | Value.nil => pure ()
  | Value.errCheck err =>
    match errOut with
    | some p => storeErr p err
    | none => pure ()
  | v => throwPanic v

/-- What a deferred function `d` that calls `recover()` makes of the way the
body ended: a `return x` of the body assigns `x` to the named result before `d`
runs; a panic of the body is handed to `d`; when `d` returns the function
returns the named result, when `d` panics the function panics. -/
def runDeferred (d : Nat → Option Value → Go Unit) (p : Nat) :
    Outcome Value × World → Outcome Value × World
  | (Outcome.returns x, w1) =>
    match (storeErr p x >>= fun _ => d p none) w1 with
    | (Outcome.returns _, w2) => (Outcome.returns (w2.errs p), w2)
    | (Outcome.panics v, w2) => (Outcome.panics v, w2)
  | (Outcome.panics v, w1) =>
    match d p (some v) w1 with
    | (Outcome.returns _, w2) => (Outcome.returns (w2.errs p), w2)
    | (Outcome.panics v2, w2) => (Outcome.panics v2, w2)

/-- The call of `func() (err error) { defer d(&err); body }`: the named result
is a fresh variable, the body runs, then the deferred function. -/
def callDeferred (d : Nat → Option Value → Go Unit) (body : Nat → Go Value) : Go Value :=
  fun w =>
    match newErr w with
    | (Outcome.panics v, w0) => (Outcome.panics v, w0)
    | (Outcome.returns p, w0) => runDeferred d p (body p w0)

/-- The call of `func() (err error) { defer Handle(&err); body }`. -/
def withHandle (body : Nat → Go Value) : Go Value :=
  callDeferred (fun p panicking => Handle (some p) panicking) body

/-- The call of `func() (err error) { body }`, with no deferred call. -/
def withoutHandle (body : Nat → Go Value) : Go Value := fun w =>
  match newErr w with
  | (Outcome.panics v, w0) => (Outcome.panics v, w0)
  | (Outcome.returns p, w0) =>
    match body p w0 with
    | (Outcome.returns x, w1) => (Outcome.returns x, (storeErr p x w1).2)
    | (Outcome.panics v, w1) => (Outcome.panics v, w1)

/-- The body `err = prior; Check(e, handlers...); rest` of the test functions. -/
def checkBody (prior e : Value) (handlers : List HandlerFunc) (rest : Nat → Go Value)
    (p : Nat) : Go Value := do
  storeErr p prior
  Check e handlers
  rest p

/-- The handler chain as the specification words it (section 4.2), apart from
the panic at its end: fold the error through the handlers from left to right,
stopping as soon as it is nil; the result is the error left after the chain. -/
def runChain : Value → List HandlerFunc → Go Value
  | err, [] => pure err
  | err, h :: handlers =>
    if err = Value.nil then pure Value.nil
    else do
      let err1 ← h err
      runChain err1 handlers

/-- A handler that records its position and its argument in the trace and
returns `f err`. -/
def observe (i : Nat) (f : Value → Value) : HandlerFunc := fun err w =>
  (Outcome.returns (f err), { w with trace := w.trace ++ [(i, err)] })

/-- The observing handlers of the functions `fs`, numbered from `k`. -/
def observedFrom : Nat → List (Value → Value) → List HandlerFunc
  | _, [] => []
  | k, f :: fs => observe k f :: observedFrom (k + 1) fs

/-- The function of the test handler `fmt.Errorf("custom handler: %w", err)`:
a new error whose text is that of `err` after the words "custom handler: ". -/
def wrapCustom : Value → Value
  | Value.errorValue id text => Value.errorValue (id + 1) ("custom handler: " ++ text)
  | _ => Value.errorValue 1 "custom handler: "

/-- The value after the first `j` functions of `fs`, applied left to right. -/
def applied (e : Value) (fs : List (Value → Value)) (j : Nat) : Value :=
  (fs.take j).foldl (fun x f => f x) e

/-! ## assert.go -/

/-- The function `assert(t bool, msg ...string) error`: a pointer to a new
`ErrAssertion` when `t` is false, nil otherwise. -/
def assert (t : Bool) (msg : List String) : Go Value :=
  if !t then
    newErrAssertion
      { Msg := stringsJoin msg " ", Expected := Value.bool true, Got := Value.bool false }
  else pure Value.nil

/-- The function `Assert(t bool, msg ...string)`. -/
def Assert (t : Bool) (msg : List String) : Go Unit := do
  let err ← assert t msg
  Check err []

/-- The statement `err.(*ErrAssertion).Expected = v`: the type assertion
panics unless `err` is a `*ErrAssertion`, the store panics on a dangling
pointer. -/
def setExpected (err v : Value) : Go Unit := fun w =>
  match err with
  | Value.ptr a =>
    match w.heap a with
    | some r =>
      (Outcome.returns (),
        { w with heap := fun i => if i = a then some { r with Expected := v } else w.heap i })
    | none => (Outcome.panics (Value.runtimeError "invalid memory address"), w)
  | _ => (Outcome.panics (Value.runtimeError "interface conversion"), w)

/-- The statement `err.(*ErrAssertion).Got = v`. -/
def setGot (err v : Value) : Go Unit := fun w =>
  match err with
  | Value.ptr a =>
    match w.heap a with
    | some r =>
      (Outcome.returns (),
        { w with heap := fun i => if i = a then some { r with Got := v } else w.heap i })
    | none => (Outcome.panics (Value.runtimeError "invalid memory address"), w)
  | _ => (Outcome.panics (Value.runtimeError "interface conversion"), w)

/-- The function `AssertEqual(got, expected any, msg ...string)`; the
comparison `got == expected` panics on an uncomparable type. -/
def AssertEqual (got expected : Value) (msg : List String) : Go Unit :=
  match goEq got expected with
  | none => throwPanic (Value.runtimeError "comparing uncomparable type")
  | some t => do
    let err ← assert t msg
    if err ≠ Value.nil then do
      setExpected err expected
      setGot err got
      Check err []
    else pure ()

/-- The loop of `fmt.Sprintf` over the characters of the format, for formats
whose only verb is `%v`: each `%v` takes the next operand and is replaced by
its rendering `fmtV`, a `%v` without operand prints `%!v(MISSING)`, any other
character is copied. -/
def sprintfChars (fmtV : Value → String) : List Char → List Value → List Char
  | [], _ => []
  | '%' :: 'v' :: cs, a :: args => (fmtV a).toList ++ sprintfChars fmtV cs args
  | '%' :: 'v' :: cs, [] => "%!v(MISSING)".toList ++ sprintfChars fmtV cs []
  | c :: cs, args => c :: sprintfChars fmtV cs args

/-- Go's `fmt.Sprintf(format, args...)` for formats whose only verb is `%v`;
the rendering of one operand by `%v` is the parameter `fmtV`. -/
def sprintf (fmtV : Value → String) (format : String) (args : List Value) : String :=
  String.mk (sprintfChars fmtV format.toList args)

/-- The rendering `%v` of fmt on the nil interface, booleans, integers and
strings; other values are rendered as the empty string here. -/
def formatScalar : Value → String
  | Value.nil => "<nil>"
  | Value.bool b => if b then "true" else "false"
  | Value.int n => toString n
  | Value.str s => s
  | _ => ""

/-- The method `ErrAssertion.Error()` of assert.go. -/
def ErrAssertion.Error (fmtV : Value → String) (e : ErrAssertion) : String :=
  let s := sprintf fmtV "assert failed (expected %v, got %v)" [e.Expected, e.Got]
  if e.Msg ≠ "" then s ++ ": " ++ e.Msg else s

mutual
/-- A stand-in for Go's `reflect.DeepEqual` on interface values, after its
documentation: values of different types are never deeply equal; scalars are
when `==` holds; slices and structs are when they have the same type and their
elements or fields are deeply equal, pair by pair.  It departs from the library
in two places: errors made outside the package are taken to be of one concrete
type, deeply equal when they are the same pointer or have the same text, and a
pointer to an `ErrAssertion` is compared by its address only, where the library
follows the pointer and compares the records.  It is exact on values that hold
neither. -/
def deepEqual : Value → Value → Bool
  | .nil, .nil => true
  | .bool a, .bool b => a == b
  | .int a, .int b => a == b
  | .str a, .str b => a == b
  | .errorValue i s, .errorValue j t => i == j || s == t
  | .ptr a, .ptr b => a == b
  | .errCheck a, .errCheck b => deepEqual a b
  | .runtimeError s, .runtimeError t => s == t
  | .slice s xs, .slice t ys => s == t && deepEquals xs ys
  | .struct s xs, .struct t ys => s == t && deepEquals xs ys
  | _, _ => false
/-- Two sequences have the same length and deeply equal members. -/
def deepEquals : Values → Values → Bool
  | .nil, .nil => true
  | .cons x xs, .cons y ys => deepEqual x y && deepEquals xs ys
  | _, _ => false
end

/-- The function `AssertDeepEqual(got, expected any, msg ...string)`; the
library function `reflect.DeepEqual`, which reads the memory and returns a
boolean, is the parameter `reflectDeepEqual`. -/
def AssertDeepEqual (reflectDeepEqual : World → Value → Value → Bool) (got expected : Value)
    (msg : List String) : Go Unit := fun w =>
  (do
    let err ← assert (reflectDeepEqual w got expected) msg
    if err ≠ Value.nil then do
      setExpected err expected
      setGot err got
      Check err []
    else pure ()) w

/-- The call `Assert(got == expected, msg...)`; the comparison panics on an
uncomparable type. -/
def assertOfEq (got expected : Value) (msg : List String) : Go Unit :=
  match goEq got expected with
  | none => throwPanic (Value.runtimeError "comparing uncomparable type")
  | some t => Assert t msg

/-- The call `Assert(got != expected, msg...)`; the comparison panics on an
uncomparable type. -/
def assertOfNe (got expected : Value) (msg : List String) : Go Unit :=
  match goEq got expected with
  | none => throwPanic (Value.runtimeError "comparing uncomparable type")
  | some t => Assert (!t) msg

/-- The body `AssertDeepEqual(got, expected, msg...); rest` of the test
functions. -/
def assertDeepEqualBody (reflectDeepEqual : World → Value → Value → Bool)
    (got expected : Value) (msg : List String) (rest : Nat → Go Value) (p : Nat) : Go Value := do
  AssertDeepEqual reflectDeepEqual got expected msg
  rest p

/-- The value `A{B: b, C: []string{...}}` of the struct type `A` of the tests. -/
def structA (b : Int) (c : Values) : Value :=
  Value.struct "A" (Values.cons (Value.int b) (Values.cons (Value.slice "string" c) Values.nil))

/-- The call of `func() (err error) { defer Handle(nil); body }`. -/
def withHandleNil (body : Nat → Go Value) : Go Value :=
  callDeferred (fun _ panicking => Handle none panicking) body

/-- The body `inner(); rest` of an outer function, where `inner` is a function
with no deferred call whose body is `err = prior; Check(e); innerRest`. -/
def outerBody (prior e : Value) (innerRest rest : Nat → Go Value) (p : Nat) : Go Value := do
  let _ ← withoutHandle (checkBody prior e [] innerRest)
  rest p

/-- The body `Assert(t, msg...); rest` of the test functions. -/
def assertBody (t : Bool) (msg : List String) (rest : Nat → Go Value) (p : Nat) : Go Value := do
  Assert t msg
  rest p

/-- The body `AssertEqual(got, expected, msg...); rest` of the test functions. -/
def assertEqualBody (got expected : Value) (msg : List String) (rest : Nat → Go Value)
    (p : Nat) : Go Value := do
  AssertEqual got expected msg
  rest p

/-! ## log.go -/

/-- The level `slog.LevelDebug`. -/
def LevelDebug : Int := -4

/-- The level `slog.LevelInfo`. -/
def LevelInfo : Int := 0

/-- The level `slog.LevelWarn`. -/
def LevelWarn : Int := 4

/-- The level `slog.LevelError`. -/
def LevelError : Int := 8

/-- The struct `logErrorOptions`; the field `Logger` is `none` for a nil
pointer. -/
structure logErrorOptions where
  Logger : Option Logger
  Level : Int
  Msg : String

/-- The function `defaultLogErrorOptions()`; `slog.Default()` reads the default
logger of the world. -/
def defaultLogErrorOptions (w : World) : logErrorOptions :=
  { Logger := some w.defaultLogger, Level := LevelError, Msg := "try got an error" }

/-- The type `LogOption func(*logErrorOptions)`: what the function makes of the
struct it is given. -/
abbrev LogOption : Type := logErrorOptions → logErrorOptions

/-- The function `WithLogger(logger *slog.Logger)`. -/
def WithLogger (logger : Option Logger) : LogOption := fun opts =>
  { opts with Logger := logger }

/-- The function `WithLevel(level slog.Level)`. -/
def WithLevel (level : Int) : LogOption := fun opts =>
  { opts with Level := level }

/-- The function `WithMsg(msg string)`. -/
def WithMsg (msg : String) : LogOption := fun opts =>
  { opts with Msg := msg }

/-- The loop `for _, option := range options { option(&opts) }` of `Log`. -/
def applyOptions : logErrorOptions → List LogOption → logErrorOptions
  | opts, [] => opts
  | opts, option :: options => applyOptions (option opts) options

/-- The value is a non-nil error whose method `Error()` can be called in the
world `w`: an error made outside the package, a runtime error, an `errCheck`
around such an error, a pointer to an allocated `ErrAssertion`. -/
def Value.isError (w : World) : Value → Bool
  | Value.errorValue _ _ => true
  | Value.runtimeError _ => true
  | Value.errCheck err => Value.isError w err
  | Value.ptr a => (w.heap a).isSome
  | _ => false

/-- The method `errCheck.Error()` of check.go and the call `err.Error()` on an
interface value: the text of an error made outside the package, the method of
`errCheck`, the method of the `ErrAssertion` a pointer leads to; the call
panics on the nil interface and on a dangling pointer. -/
def callError (fmtV : Value → String) : Value → Go String
  | Value.errorValue _ text => pure text
  | Value.runtimeError text => pure text
  | Value.errCheck err => do
    let text ← callError fmtV err
    pure ("try.errCheck: " ++ text ++
      " (Note: This panic may be raised by a call to try.Check without " ++
      "a defer try.Handle(&err) before it, which may be a wrong usage.")
  | Value.ptr a => fun w =>
    match w.heap a with
    | some r => (Outcome.returns (r.Error fmtV), w)
    | none => (Outcome.panics (Value.runtimeError "invalid memory address"), w)
  | _ => throwPanic (Value.runtimeError "invalid memory address")

/-- The text `err.Error()` returns in the world `w`, empty when the call
panics. -/
def errorText (fmtV : Value → String) (w : World) (err : Value) : String :=
  match (callError fmtV err w).1 with
  | Outcome.returns text => text
  | Outcome.panics _ => ""

/-- The call `runtime.Callers(skip, pcs[:])` made by the handler of `Log` while
`Check` runs it: the stack is the frame of `Callers`, the frame of the handler,
the frame of `Check`, then the frames of the function that called `Check` and
of its callers; the frames after the first `skip` are recorded. -/
def runtimeCallers (skip : Nat) : Go (List Frame) := fun w =>
  (Outcome.returns
    ((Frame.runtimeCallers :: Frame.logFunc1 :: Frame.check :: w.stack).drop skip), w)

/-- The function `slog.NewRecord(time, level, msg, pc)`, without the time. -/
def NewRecord (level : Int) (msg : String) (pc : Option Frame) : LogRecord :=
  { level := level, msg := msg, pc := pc, attrs := [] }

/-- The method `Logger.With` with one string attribute. -/
def Logger.With (l : Logger) (key value : String) : Logger :=
  { l with attrs := l.attrs ++ [(key, value)] }

/-- The call `l.Handler().Handle(ctx, r)`: the handler appends the record, with
its own attributes, to its output. -/
def handlerHandle (l : Logger) (r : LogRecord) : Go Unit := fun w =>
  (Outcome.returns (),
    { w with outputs := fun i =>
        if i = l.out then w.outputs i ++ [{ r with attrs := l.attrs ++ r.attrs }]
        else w.outputs i })

/-- The closure `Log` returns, over the options `opts`; `pcs[0]` is the first
recorded frame, the zero pc when none is recorded. -/
def logFunc1 (fmtV : Value → String) (opts : logErrorOptions) : HandlerFunc := fun err =>
  match opts.Logger with
  | none => throwPanic (Value.runtimeError "invalid memory address")
  | some logger =>
    if !logger.enabled opts.Level then pure err
    else do
      let pcs ← runtimeCallers 4
      let r := NewRecord opts.Level opts.Msg pcs.head?
      let text ← callError fmtV err
      handlerHandle (logger.With "err" text) r
      pure err

/-- The function `Log(options ...LogOption) HandlerFunc`, called in the world
`w`. -/
def Log (fmtV : Value → String) (options : List LogOption) (w : World) : HandlerFunc :=
  logFunc1 fmtV (applyOptions (defaultLogErrorOptions w) options)

/-- The three options of the package, as data. -/
inductive OptionSpec where
  | logger (l : Option Logger) : OptionSpec
  | level (n : Int) : OptionSpec
  | msg (s : String) : OptionSpec

/-- The `LogOption` an option stands for. -/
def OptionSpec.toLogOption : OptionSpec → LogOption
  | OptionSpec.logger l => WithLogger l
  | OptionSpec.level n => WithLevel n
  | OptionSpec.msg s => WithMsg s

/-- The logger the option sets, if it sets the field `Logger`. -/
def OptionSpec.setsLogger : OptionSpec → Option (Option Logger)
  | OptionSpec.logger l => some l
  | _ => none

/-- The level the option sets, if it sets the field `Level`. -/
def OptionSpec.setsLevel : OptionSpec → Option Int
  | OptionSpec.level n => some n
  | _ => none

/-- The message the option sets, if it sets the field `Msg`. -/
def OptionSpec.setsMsg : OptionSpec → Option String
  | OptionSpec.msg s => some s
  | _ => none

/-! ## Evaluation lemmas -/

@[simp] theorem pure_apply {α : Type} (a : α) (w : World) :
    (pure a : Go α) w = (Outcome.returns a, w) := rfl

@[simp] theorem bind_apply {α β : Type} (m : Go α) (f : α → Go β) (w : World) :
    (m >>= f) w =
      match m w with
      | (Outcome.returns a, w1) => f a w1
      | (Outcome.panics v, w1) => (Outcome.panics v, w1) := rfl

@[simp] theorem throwPanic_apply {α : Type} (v : Value) (w : World) :
    (throwPanic v : Go α) w = (Outcome.panics v, w) := rfl

@[simp] theorem Check_nil_handlers (err : Value) :
    Check err [] =
      if err ≠ Value.nil then throwPanic (Value.errCheck err) else pure () := rfl

@[simp] theorem Check_cons (err : Value) (h : HandlerFunc) (hs : List HandlerFunc) :
    Check err (h :: hs) =
      if err = Value.nil then pure () else h err >>= fun err1 => Check err1 hs := rfl

@[simp] theorem runChain_nil_handlers (err : Value) : runChain err [] = pure err := rfl

@[simp] theorem runChain_cons (err : Value) (h : HandlerFunc) (hs : List HandlerFunc) :
    runChain err (h :: hs) =
      if err = Value.nil then pure Value.nil else h err >>= fun err1 => runChain err1 hs := rfl

/-- The deferred `Handle` when the function is not panicking. -/
theorem Handle_not_panicking (errOut : Option Nat) (w : World) :
    Handle errOut none w = (Outcome.returns (), w) := rfl

/-- The deferred `Handle` on a panic raised by `Check`. -/
theorem Handle_errCheck (p : Nat) (err : Value) (w : World) :
    Handle (some p) (some (Value.errCheck err)) w = storeErr p err w := rfl

/-- The deferred `Handle` on any other panic. -/
theorem Handle_other (errOut : Option Nat) (v : Value) (w : World)
    (hnil : v ≠ Value.nil) (hv : ∀ err, v ≠ Value.errCheck err) :
    Handle errOut (some v) w = (Outcome.panics v, w) := by
  cases v with
  | nil => exact absurd rfl hnil
  | errCheck err => exact absurd rfl (hv err)
  | _ => rfl

/-- A function with a deferred `Handle` whose body panics with `errCheck`. -/
theorem withHandle_of_errCheck (body : Nat → Go Value) (w w1 : World) (err : Value)
    (hb : body w.nextErr (newErr w).2 = (Outcome.panics (Value.errCheck err), w1)) :
    withHandle body w = (Outcome.returns err, (storeErr w.nextErr err w1).2) := by
  simp [withHandle, callDeferred, newErr, storeErr] at hb ⊢
  rw [hb]
  simp [runDeferred, Handle, recover, storeErr]

/-- A function with a deferred `Handle` whose body returns. -/
theorem withHandle_of_returns (body : Nat → Go Value) (w w1 : World) (x : Value)
    (hb : body w.nextErr (newErr w).2 = (Outcome.returns x, w1)) :
    withHandle body w = (Outcome.returns x, (storeErr w.nextErr x w1).2) := by
  simp [withHandle, callDeferred, newErr, storeErr] at hb ⊢
  rw [hb]
  simp [runDeferred, Handle, recover, storeErr]

/-- A function with a deferred `Handle` whose body panics with another value. -/
theorem withHandle_of_other (body : Nat → Go Value) (w w1 : World) (v : Value)
    (hnil : v ≠ Value.nil) (hv : ∀ err, v ≠ Value.errCheck err)
    (hb : body w.nextErr (newErr w).2 = (Outcome.panics v, w1)) :
    withHandle body w = (Outcome.panics v, w1) := by
  simp [withHandle, callDeferred, newErr] at hb ⊢
  rw [hb]
  simp [runDeferred, Handle_other _ v w1 hnil hv]

/-- With a nil error the loop of `Check` stops before its first handler. -/
theorem Check_of_nil (hs : List HandlerFunc) (w : World) :
    Check Value.nil hs w = (Outcome.returns (), w) := by
  cases hs <;> simp

/-- When the chain over the first handlers leaves a non-nil error, `Check`
goes on with the remaining handlers from there. -/
theorem Check_append_of_runChain (pre hs : List HandlerFunc) (e ek : Value) (w wk : World)
    (hpre : runChain e pre w = (Outcome.returns ek, wk)) (hek : ek ≠ Value.nil) :
    Check e (pre ++ hs) w = Check ek hs wk := by
  induction pre generalizing e w with
  | nil =>
    simp at hpre
    rw [hpre.1, hpre.2]
    rfl
  | cons g pre ih =>
    by_cases he : e = Value.nil
    · simp [he] at hpre
      exact absurd hpre.1.symm hek
    · simp only [runChain_cons, if_neg he, bind_apply] at hpre
      simp only [List.cons_append, Check_cons, if_neg he, bind_apply]
      rcases hg : g e w with ⟨o, w2⟩
      rw [hg] at hpre
      cases o with
      | returns e2 => exact ih e2 w2 hpre
      | panics v => simp at hpre

/-- The body of the test functions when `Check` returns normally. -/
theorem checkBody_of_Check_returns (prior e : Value) (hs : List HandlerFunc)
    (rest : Nat → Go Value) (p : Nat) (w w1 : World)
    (hc : Check e hs (storeErr p prior w).2 = (Outcome.returns (), w1)) :
    checkBody prior e hs rest p w = rest p w1 := by
  simp only [checkBody, bind_apply]
  have hs1 : storeErr p prior w = (Outcome.returns (), (storeErr p prior w).2) := rfl
  rw [hs1]
  simp only
  rw [hc]

/-- The body of the test functions when `Check` panics. -/
theorem checkBody_of_Check_panics (prior e v : Value) (hs : List HandlerFunc)
    (rest : Nat → Go Value) (p : Nat) (w w1 : World)
    (hc : Check e hs (storeErr p prior w).2 = (Outcome.panics v, w1)) :
    checkBody prior e hs rest p w = (Outcome.panics v, w1) := by
  simp only [checkBody, bind_apply]
  have hs1 : storeErr p prior w = (Outcome.returns (), (storeErr p prior w).2) := rfl
  rw [hs1]
  simp only
  rw [hc]

/-- The call with a deferred `Handle`, unfolded to the body and the deferred
call. -/
theorem withHandle_eq (body : Nat → Go Value) (w : World) :
    withHandle body w =
      runDeferred (fun p panicking => Handle (some p) panicking) w.nextErr
        (body w.nextErr (newErr w).2) := rfl

@[simp] theorem applied_zero (e : Value) (fs : List (Value → Value)) :
    applied e fs 0 = e := by
  simp [applied]

@[simp] theorem applied_cons_succ (e : Value) (f : Value → Value) (fs : List (Value → Value))
    (j : Nat) : applied e (f :: fs) (j + 1) = applied (f e) fs j := by
  simp [applied]

theorem applied_length (e : Value) (fs : List (Value → Value)) :
    applied e fs fs.length = fs.foldl (fun x f => f x) e := by
  simp [applied]

/-- The run of `Check` over observing handlers numbered from `k`: it stops
after `n` handlers, the first `n` values are non-nil, and the trace gains the
`n` calls in order. -/
theorem Check_observedFrom (fs : List (Value → Value)) :
    ∀ (e : Value) (k : Nat) (w : World),
      ∃ n, n ≤ fs.length ∧ (∀ j, j < n → applied e fs j ≠ Value.nil) ∧
        (n < fs.length → applied e fs n = Value.nil) ∧
        Check e (observedFrom k fs) w =
          (if applied e fs n = Value.nil then Outcome.returns ()
            else Outcome.panics (Value.errCheck (applied e fs n)),
            { w with trace :=
                w.trace ++ (List.range n).map (fun j => (k + j, applied e fs j)) }) := by
  induction fs with
  | nil =>
    intro e k w
    refine ⟨0, le_refl _, fun j hj => absurd hj (Nat.not_lt_zero j), fun h => absurd h (lt_irrefl _), ?_⟩
    by_cases he : e = Value.nil <;> simp [observedFrom, he]
  | cons f fs ih =>
    intro e k w
    by_cases he : e = Value.nil
    · refine ⟨0, Nat.zero_le _, fun j hj => absurd hj (Nat.not_lt_zero j), fun _ => by simpa using he, ?_⟩
      simp [observedFrom, he]
    · obtain ⟨n, hn, hne, hstop, hrun⟩ :=
        ih (f e) (k + 1) { w with trace := w.trace ++ [(k, e)] }
      refine ⟨n + 1, by simpa using hn, ?_, ?_, ?_⟩
      · intro j hj
        cases j with
        | zero => simpa using he
        | succ j => simpa using hne j (by omega)
      · intro hlt
        simpa using hstop (by simpa using hlt)
      · simp only [observedFrom, Check_cons, if_neg he, bind_apply, observe]
        rw [hrun]
        simp only [applied_cons_succ, List.range_succ_eq_map, List.map_cons, List.map_map,
          applied_zero, Nat.add_zero, List.append_assoc, List.singleton_append]
        have hmap : List.map (fun j => (k + 1 + j, applied (f e) fs j)) (List.range n) =
            List.map ((fun j => (k + j, applied e (f :: fs) j)) ∘ Nat.succ) (List.range n) := by
          apply List.map_congr_left
          intro j _
          simp [Nat.add_assoc, Nat.add_comm 1 j]
        rw [hmap]

/-! ## Check and Handle -/

/-- C1: for a non-nil error `e` and any prior value of the named result, the
function `func() (err error) { defer Handle(&err); err = prior; Check(e); rest }`
returns normally, its result is `e` itself and the named result holds `e`. -/
theorem check_handle_returns_error (e prior : Value) (rest : Nat → Go Value) (w : World)
    (he : e ≠ Value.nil) :
    (withHandle (checkBody prior e [] rest) w).1 = Outcome.returns e ∧
      (withHandle (checkBody prior e [] rest) w).2.errs w.nextErr = e := by
  have hb : checkBody prior e [] rest w.nextErr (newErr w).2 =
      (Outcome.panics (Value.errCheck e), (storeErr w.nextErr prior (newErr w).2).2) := by
    simp [checkBody, storeErr, he]
  rw [withHandle_of_errCheck _ w _ e hb]
  simp [storeErr]

theorem check_handle_returns_error_witness :
    Value.errorValue 0 "there is a error" ≠ Value.nil ∧
      (withHandle (checkBody (Value.errorValue 0 "there is a error")
        (Value.errorValue 0 "there is a error") [] (fun _ => pure Value.nil)) World.empty).1 =
        Outcome.returns (Value.errorValue 0 "there is a error") :=
  ⟨by decide,
    (check_handle_returns_error (Value.errorValue 0 "there is a error")
      (Value.errorValue 0 "there is a error") (fun _ => pure Value.nil) World.empty
      (by decide)).1⟩

/-- C2: `Check` returns no value; it panics with `errCheck` wrapping the error
left by the handler chain when that error is non-nil, returns normally when it
is nil, and passes on the panic of a handler that panics.  In a function with
no deferred call, `Check` of a non-nil error with no handlers ends the
function by the panic `errCheck{e}`. -/
theorem Check_panics_iff_error_left (e : Value) (hs : List HandlerFunc) (w : World) :
    (∀ w1, runChain e hs w = (Outcome.returns Value.nil, w1) →
        Check e hs w = (Outcome.returns (), w1)) ∧
      (∀ e1 w1, e1 ≠ Value.nil → runChain e hs w = (Outcome.returns e1, w1) →
        Check e hs w = (Outcome.panics (Value.errCheck e1), w1)) ∧
      (∀ v w1, runChain e hs w = (Outcome.panics v, w1) →
        Check e hs w = (Outcome.panics v, w1)) ∧
      (∀ prior rest, e ≠ Value.nil →
        (withoutHandle (checkBody prior e [] rest) w).1 =
          Outcome.panics (Value.errCheck e)) := by
  refine ⟨?_, ?_, ?_, ?_⟩
  · induction hs generalizing e w with
    | nil =>
      intro w1 h
      simp at h
      simp [h.1, h.2]
    | cons h hs ih =>
      intro w1 hr
      by_cases he : e = Value.nil
      · simp [he] at hr ⊢
        exact hr
      · simp only [runChain_cons, Check_cons, if_neg he, bind_apply] at hr ⊢
        rcases hh : h e w with ⟨o, w2⟩
        rw [hh] at hr
        cases o with
        | returns e2 => exact ih e2 w2 w1 hr
        | panics v => simp at hr
  · induction hs generalizing e w with
    | nil =>
      intro e1 w1 hne h
      simp at h
      obtain ⟨h1, h2⟩ := h
      subst h1 h2
      simp [hne]
    | cons h hs ih =>
      intro e1 w1 hne hr
      by_cases he : e = Value.nil
      · simp [he] at hr
        exact absurd hr.1.symm hne
      · simp only [runChain_cons, Check_cons, if_neg he, bind_apply] at hr ⊢
        rcases hh : h e w with ⟨o, w2⟩
        rw [hh] at hr
        cases o with
        | returns e2 => exact ih e2 w2 e1 w1 hne hr
        | panics v => simp at hr
  · induction hs generalizing e w with
    | nil =>
      intro v w1 h
      simp at h
    | cons h hs ih =>
      intro v w1 hr
      by_cases he : e = Value.nil
      · simp [he] at hr
      · simp only [runChain_cons, Check_cons, if_neg he, bind_apply] at hr ⊢
        rcases hh : h e w with ⟨o, w2⟩
        rw [hh] at hr
        cases o with
        | returns e2 => exact ih e2 w2 v w1 hr
        | panics v2 =>
          simp only [Prod.mk.injEq, Outcome.panics.injEq] at hr ⊢
          exact hr
  · intro prior rest he
    simp [withoutHandle, newErr, checkBody, storeErr, he]

theorem Check_panics_iff_error_left_witness :
    (withoutHandle (checkBody Value.nil (Value.errorValue 0 "there is a error") []
      (fun _ => pure Value.nil)) World.empty).1 =
      Outcome.panics (Value.errCheck (Value.errorValue 0 "there is a error")) :=
  (Check_panics_iff_error_left (Value.errorValue 0 "there is a error") [] World.empty).2.2.2
    Value.nil (fun _ => pure Value.nil) (by decide)

/-- C3: on a panic whose value `v` is not an `errCheck`, the deferred `Handle`
panics again with `v` and leaves the world, so also `*errOut`, as it was; the
function panics with `v` instead of returning. -/
theorem Handle_repanics_other (v : Value) (hnil : v ≠ Value.nil)
    (hv : ∀ err, v ≠ Value.errCheck err) :
    (∀ errOut w, Handle errOut (some v) w = (Outcome.panics v, w)) ∧
      (∀ body w w1, body w.nextErr (newErr w).2 = (Outcome.panics v, w1) →
        withHandle body w = (Outcome.panics v, w1)) :=
  ⟨fun errOut w => Handle_other errOut v w hnil hv,
    fun body w w1 hb => withHandle_of_other body w w1 v hnil hv hb⟩

theorem Handle_repanics_other_witness :
    Value.str "custom panic" ≠ Value.nil ∧
      (∀ err, Value.str "custom panic" ≠ Value.errCheck err) ∧
      withHandle (fun _ => throwPanic (Value.str "custom panic")) World.empty =
        (Outcome.panics (Value.str "custom panic"), (newErr World.empty).2) :=
  ⟨by decide, fun _ => by simp,
    (Handle_repanics_other (Value.str "custom panic") (by decide) (fun _ => by simp)).2
      (fun _ => throwPanic (Value.str "custom panic")) World.empty _ rfl⟩

/-- C4: `Check(nil, hs...)` returns normally and leaves the world as it was,
whatever the handlers are: none of them runs. -/
theorem Check_nil_runs_no_handler (hs : List HandlerFunc) (w : World) :
    Check Value.nil hs w = (Outcome.returns (), w) :=
  Check_of_nil hs w

/-- C5: when the chain over the handlers before `h` leaves a non-nil error
`ek` and `h` returns nil on it, `Check` returns normally in the world `h` left:
none of the handlers after `h` runs, whatever they are.  A function with a
deferred `Handle` then goes on with the rest of its body, and its result is
what the rest of the body makes it. -/
theorem Check_early_stop (e : Value) (pre post : List HandlerFunc) (h : HandlerFunc) :
    (∀ w wk w1 ek, runChain e pre w = (Outcome.returns ek, wk) → ek ≠ Value.nil →
        h ek wk = (Outcome.returns Value.nil, w1) →
        Check e (pre ++ h :: post) w = (Outcome.returns (), w1)) ∧
      (∀ prior rest w wk w1 ek,
        runChain e pre (storeErr w.nextErr prior (newErr w).2).2 = (Outcome.returns ek, wk) →
        ek ≠ Value.nil → h ek wk = (Outcome.returns Value.nil, w1) →
        withHandle (checkBody prior e (pre ++ h :: post) rest) w =
          runDeferred (fun p panicking => Handle (some p) panicking) w.nextErr
            (rest w.nextErr w1)) ∧
      (∀ prior rest w wk w1 w2 ek x,
        runChain e pre (storeErr w.nextErr prior (newErr w).2).2 = (Outcome.returns ek, wk) →
        ek ≠ Value.nil → h ek wk = (Outcome.returns Value.nil, w1) →
        rest w.nextErr w1 = (Outcome.returns x, w2) →
        (withHandle (checkBody prior e (pre ++ h :: post) rest) w).1 = Outcome.returns x ∧
          (withHandle (checkBody prior e (pre ++ h :: post) rest) w).2.errs w.nextErr = x) := by
  have key : ∀ w wk w1 ek, runChain e pre w = (Outcome.returns ek, wk) → ek ≠ Value.nil →
      h ek wk = (Outcome.returns Value.nil, w1) →
      Check e (pre ++ h :: post) w = (Outcome.returns (), w1) := by
    intro w wk w1 ek hpre hek hh
    rw [Check_append_of_runChain pre (h :: post) e ek w wk hpre hek]
    simp only [Check_cons, if_neg hek, bind_apply]
    rw [hh]
    exact Check_of_nil post w1
  refine ⟨key, ?_, ?_⟩
  · intro prior rest w wk w1 ek hpre hek hh
    rw [withHandle_eq]
    rw [checkBody_of_Check_returns prior e _ rest w.nextErr _ w1 (key _ wk w1 ek hpre hek hh)]
  · intro prior rest w wk w1 w2 ek x hpre hek hh hrest
    have hb : checkBody prior e (pre ++ h :: post) rest w.nextErr (newErr w).2 =
        (Outcome.returns x, w2) := by
      rw [checkBody_of_Check_returns prior e _ rest w.nextErr _ w1
        (key _ wk w1 ek hpre hek hh)]
      exact hrest
    rw [withHandle_of_returns _ w w2 x hb]
    simp [storeErr]

theorem Check_early_stop_witness :
    Check (Value.errorValue 0 "there is a error")
        ([] ++ observe 0 (fun _ => Value.nil) ::
          [observe 1 (fun x => x), fun _ => throwPanic (Value.str "h3 was called")])
        World.empty =
      (Outcome.returns (),
        { World.empty with trace := [(0, Value.errorValue 0 "there is a error")] }) :=
  (Check_early_stop (Value.errorValue 0 "there is a error") []
      [observe 1 (fun x => x), fun _ => throwPanic (Value.str "h3 was called")]
      (observe 0 (fun _ => Value.nil))).1
    World.empty World.empty _ (Value.errorValue 0 "there is a error") rfl (by decide) rfl

/-- C6: `Check` over handlers that record their calls runs them from left to
right without gaps or repeats: it calls the first `n` of them, handler `j` on
the value the handlers before it made of `e`, every value handed over is
non-nil, and it stops before the end only at a nil.  When no value is nil the
panic carries the value after all handlers, and a deferred `Handle` makes the
function return that value. -/
theorem Check_left_to_right (e : Value) (fs : List (Value → Value)) (w : World)
    (he : e ≠ Value.nil) :
    (∃ n, n ≤ fs.length ∧ (fs ≠ [] → 0 < n) ∧
        (∀ j, j < n → applied e fs j ≠ Value.nil) ∧
        (n < fs.length → applied e fs n = Value.nil) ∧
        Check e (observedFrom 0 fs) w =
          (if applied e fs n = Value.nil then Outcome.returns ()
            else Outcome.panics (Value.errCheck (applied e fs n)),
            { w with trace :=
                w.trace ++ (List.range n).map (fun j => (j, applied e fs j)) })) ∧
      ((∀ j, j ≤ fs.length → applied e fs j ≠ Value.nil) →
        (Check e (observedFrom 0 fs) w).1 =
            Outcome.panics (Value.errCheck (fs.foldl (fun x f => f x) e)) ∧
          ∀ prior rest,
            (withHandle (checkBody prior e (observedFrom 0 fs) rest) w).1 =
                Outcome.returns (fs.foldl (fun x f => f x) e) ∧
              (withHandle (checkBody prior e (observedFrom 0 fs) rest) w).2.errs w.nextErr =
                fs.foldl (fun x f => f x) e) := by
  have full : ∀ w1 : World, (∀ j, j ≤ fs.length → applied e fs j ≠ Value.nil) →
      ∃ w2, Check e (observedFrom 0 fs) w1 =
        (Outcome.panics (Value.errCheck (fs.foldl (fun x f => f x) e)), w2) := by
    intro w1 hall
    obtain ⟨n, hn, _, hstop, hrun⟩ := Check_observedFrom fs e 0 w1
    have hlen : n = fs.length := by
      rcases Nat.lt_or_ge n fs.length with hlt | hge
      · exact absurd (hstop hlt) (hall n hn)
      · exact le_antisymm hn hge
    subst hlen
    rw [hrun, if_neg (hall _ (le_refl _)), applied_length]
    exact ⟨_, rfl⟩
  refine ⟨?_, ?_⟩
  · obtain ⟨n, hn, hne, hstop, hrun⟩ := Check_observedFrom fs e 0 w
    refine ⟨n, hn, ?_, hne, hstop, ?_⟩
    · intro hfs
      rcases Nat.eq_zero_or_pos n with h0 | hpos
      · subst h0
        have hlt : 0 < fs.length := List.length_pos.mpr hfs
        exact absurd (by simpa using hstop hlt) he
      · exact hpos
    · simpa using hrun
  · intro hall
    refine ⟨?_, ?_⟩
    · obtain ⟨w2, h2⟩ := full w hall
      rw [h2]
    · intro prior rest
      obtain ⟨w2, h2⟩ := full (storeErr w.nextErr prior (newErr w).2).2 hall
      rw [withHandle_of_errCheck _ w w2 _
        (checkBody_of_Check_panics prior e _ _ rest w.nextErr _ w2 h2)]
      simp [storeErr]

theorem Check_left_to_right_witness :
    Value.errorValue 0 "there is a error" ≠ Value.nil ∧
      (∀ j, j ≤ [wrapCustom].length →
        applied (Value.errorValue 0 "there is a error") [wrapCustom] j ≠ Value.nil) ∧
      (Check (Value.errorValue 0 "there is a error") (observedFrom 0 [wrapCustom])
        World.empty).1 =
        Outcome.panics (Value.errCheck
          ([wrapCustom].foldl (fun x f => f x) (Value.errorValue 0 "there is a error"))) :=
  have hall : ∀ j, j ≤ [wrapCustom].length →
      applied (Value.errorValue 0 "there is a error") [wrapCustom] j ≠ Value.nil := by
    intro j hj
    have hj1 : j = 0 ∨ j = 1 := by
      simp only [List.length_singleton] at hj
      omega
    rcases hj1 with h | h <;> subst h <;> simp [applied, wrapCustom]
  ⟨by decide, hall,
    ((Check_left_to_right (Value.errorValue 0 "there is a error") [wrapCustom] World.empty
      (by decide)).2 hall).1⟩

/-- The test chain "transform and stop": the first handler gets the original
error, the second the wrapped one, and `Check` returns normally. -/
theorem Check_transform_and_stop_example :
    Check (Value.errorValue 0 "there is a error")
        (observedFrom 0 [wrapCustom, fun _ => Value.nil]) World.empty =
      (Outcome.returns (),
        { World.empty with trace :=
            [(0, Value.errorValue 0 "there is a error"),
              (1, Value.errorValue 1 "custom handler: there is a error")] }) := by
  simp [observedFrom, observe, wrapCustom, World.empty]

/-- C7: when the function is not panicking the deferred `Handle` returns and
leaves the world as it was; a function whose body returns `x` behaves with the
deferred `Handle` as without it: it returns `x` and the named result holds `x`. -/
theorem Handle_no_panic_does_nothing :
    (∀ errOut w, Handle errOut none w = (Outcome.returns (), w)) ∧
      (∀ body w w1 x, body w.nextErr (newErr w).2 = (Outcome.returns x, w1) →
        withHandle body w = withoutHandle body w ∧
          (withHandle body w).1 = Outcome.returns x ∧
          (withHandle body w).2.errs w.nextErr = x) := by
  refine ⟨fun errOut w => Handle_not_panicking errOut w, ?_⟩
  intro body w w1 x hb
  rw [withHandle_of_returns body w w1 x hb]
  refine ⟨?_, rfl, by simp [storeErr]⟩
  simp only [withoutHandle]
  simp only [newErr] at hb ⊢
  rw [hb]

theorem Handle_no_panic_does_nothing_witness :
    withHandle (fun _ => pure (Value.errorValue 1 "returned")) World.empty =
        withoutHandle (fun _ => pure (Value.errorValue 1 "returned")) World.empty ∧
      (withHandle (fun _ => pure (Value.errorValue 1 "returned")) World.empty).1 =
        Outcome.returns (Value.errorValue 1 "returned") ∧
      (withHandle (fun _ => pure (Value.errorValue 1 "returned")) World.empty).2.errs
        World.empty.nextErr = Value.errorValue 1 "returned" :=
  Handle_no_panic_does_nothing.2 (fun _ => pure (Value.errorValue 1 "returned"))
    World.empty _ _ rfl

/-! ## Assertions -/

theorem intercalate_go_eq (sep : String) (rest : List String) :
    ∀ acc s : String,
      String.intercalate.go (acc ++ s) sep rest = acc ++ stringsJoin (s :: rest) sep := by
  induction rest with
  | nil =>
    intro acc s
    simp [String.intercalate.go, stringsJoin]
  | cons t rest ih =>
    intro acc s
    have h := ih (acc ++ s ++ sep) t
    simp only [String.intercalate.go, stringsJoin]
    rw [h]
    simp [String.append_assoc]

/-- The loop of `strings.Join` computes the parts joined by the separator. -/
theorem stringsJoin_eq_intercalate (msg : List String) (sep : String) :
    stringsJoin msg sep = sep.intercalate msg := by
  cases msg with
  | nil => rfl
  | cons s rest =>
    have h := intercalate_go_eq sep rest "" s
    simp only [String.empty_append] at h
    simp only [String.intercalate]
    rw [h]

theorem Value.sameType_self (a : Value) : a.sameType a = true := by
  cases a <;> simp [Value.sameType]

/-- On comparable values `==` is the equality of the values. -/
theorem goEq_of_comparable (a b : Value) (ha : a.comparable = true) (hb : b.comparable = true) :
    goEq a b = some (decide (a = b)) := by
  unfold goEq
  by_cases hs : a.sameType b = true
  · simp [hs, ha, hb]
  · have hne : a ≠ b := by
      intro h
      subst h
      exact hs (Value.sameType_self a)
    simp [hs, hne]

theorem Assert_true (msg : List String) (w : World) :
    Assert true msg w = (Outcome.returns (), w) := by
  simp [Assert, assert]

theorem Assert_false (msg : List String) (w : World) :
    Assert false msg w =
      (Outcome.panics (Value.errCheck (Value.ptr w.nextAddr)),
        (newErrAssertion
          { Msg := stringsJoin msg " ", Got := Value.bool false, Expected := Value.bool true }
          w).2) := by
  simp [Assert, assert, newErrAssertion]

theorem AssertEqual_of_eq (got : Value) (msg : List String) (w : World)
    (hg : got.comparable = true) :
    AssertEqual got got msg w = (Outcome.returns (), w) := by
  simp [AssertEqual, goEq_of_comparable got got hg hg, assert]

theorem AssertEqual_of_ne (got expected : Value) (msg : List String) (w : World)
    (hg : got.comparable = true) (he : expected.comparable = true) (hne : got ≠ expected) :
    (AssertEqual got expected msg w).1 =
        Outcome.panics (Value.errCheck (Value.ptr w.nextAddr)) ∧
      (AssertEqual got expected msg w).2.heap w.nextAddr =
        some { Msg := stringsJoin msg " ", Got := got, Expected := expected } := by
  simp [AssertEqual, goEq_of_comparable got expected hg he, hne, assert, newErrAssertion,
    setExpected, setGot]

/-- C8: `Assert(true, msg...)` returns normally and leaves the world as it
was, so a function goes on after it with or without a deferred `Handle`;
`Assert(false, msg...)` panics with `errCheck`, and the panic ends a function
with no deferred call.  `Assert(t, msg...)` panics if and only if `t` is false. -/
theorem Assert_raises_iff_false (t : Bool) (msg : List String) (w : World) :
    Assert true msg w = (Outcome.returns (), w) ∧
      (∀ rest, withHandle (assertBody true msg rest) w = withHandle rest w) ∧
      (∀ rest, withoutHandle (assertBody true msg rest) w = withoutHandle rest w) ∧
      (Assert false msg w).1 = Outcome.panics (Value.errCheck (Value.ptr w.nextAddr)) ∧
      (∀ rest, (withoutHandle (assertBody false msg rest) w).1 =
        Outcome.panics (Value.errCheck (Value.ptr w.nextAddr))) ∧
      ((∃ v, (Assert t msg w).1 = Outcome.panics v) ↔ t = false) := by
  refine ⟨Assert_true msg w, ?_, ?_, ?_, ?_, ?_⟩
  · intro rest
    have hb : assertBody true msg rest = rest := by
      funext p w1
      simp [assertBody, Assert_true]
    rw [hb]
  · intro rest
    have hb : assertBody true msg rest = rest := by
      funext p w1
      simp [assertBody, Assert_true]
    rw [hb]
  · rw [Assert_false]
  · intro rest
    simp [withoutHandle, newErr, assertBody, Assert_false, newErrAssertion]
  · cases t with
    | true => simp [Assert_true]
    | false => simp [Assert_false]

/-- C9: a function that defers `Handle(&err)` and calls `Assert(false, msg...)`
returns a pointer to a new `ErrAssertion` whose `Msg` is the parts joined by
one space, whose `Got` is false and whose `Expected` is true, and its named
result holds that pointer. -/
theorem Assert_false_handled (msg : List String) (rest : Nat → Go Value) (w : World) :
    (withHandle (assertBody false msg rest) w).1 = Outcome.returns (Value.ptr w.nextAddr) ∧
      (withHandle (assertBody false msg rest) w).2.errs w.nextErr = Value.ptr w.nextAddr ∧
      (withHandle (assertBody false msg rest) w).2.heap w.nextAddr =
        some { Msg := " ".intercalate msg, Got := Value.bool false,
               Expected := Value.bool true } := by
  have hb : assertBody false msg rest w.nextErr (newErr w).2 =
      (Outcome.panics (Value.errCheck (Value.ptr w.nextAddr)),
        (newErrAssertion
          { Msg := stringsJoin msg " ", Got := Value.bool false, Expected := Value.bool true }
          (newErr w).2).2) := by
    simp [assertBody, Assert_false, newErr, newErrAssertion]
  rw [withHandle_of_errCheck _ w _ _ hb]
  simp [storeErr, newErrAssertion, newErr, stringsJoin_eq_intercalate]

/-- The test `assertWithMsg`: the two parts are joined by one space. -/
theorem assertWithMsg_example :
    (withHandle (assertBody false ["this is a message", "with multiple parts"]
        (fun _ => pure Value.nil)) World.empty).2.heap 0 =
      some { Msg := "this is a message with multiple parts", Got := Value.bool false,
             Expected := Value.bool true } := by
  simp [withHandle, callDeferred, runDeferred, newErr, assertBody, Assert_false,
    newErrAssertion, Handle, recover, storeErr, World.empty, stringsJoin]

/-- C10: for comparable `got` and `expected`, in a function with a deferred
`Handle`: when `got == expected`, `AssertEqual` returns normally, leaves the
world as it was and the function goes on; otherwise the function returns a
pointer to a new `ErrAssertion` whose `Got` is `got`, whose `Expected` is
`expected` and whose `Msg` is the joined parts. -/
theorem AssertEqual_handled (got expected : Value) (msg : List String)
    (rest : Nat → Go Value) (w : World)
    (hg : got.comparable = true) (he : expected.comparable = true) :
    (got = expected →
        AssertEqual got expected msg w = (Outcome.returns (), w) ∧
          withHandle (assertEqualBody got expected msg rest) w = withHandle rest w) ∧
      (got ≠ expected →
        (withHandle (assertEqualBody got expected msg rest) w).1 =
            Outcome.returns (Value.ptr w.nextAddr) ∧
          (withHandle (assertEqualBody got expected msg rest) w).2.errs w.nextErr =
            Value.ptr w.nextAddr ∧
          (withHandle (assertEqualBody got expected msg rest) w).2.heap w.nextAddr =
            some { Msg := " ".intercalate msg, Got := got, Expected := expected }) := by
  refine ⟨?_, ?_⟩
  · intro heq
    subst heq
    refine ⟨AssertEqual_of_eq got msg w hg, ?_⟩
    have hb : assertEqualBody got got msg rest = rest := by
      funext p w1
      simp [assertEqualBody, AssertEqual_of_eq got msg _ hg]
    rw [hb]
  · intro hne
    obtain ⟨hout, hheap⟩ := AssertEqual_of_ne got expected msg (newErr w).2 hg he hne
    have hrun : AssertEqual got expected msg (newErr w).2 =
        (Outcome.panics (Value.errCheck (Value.ptr w.nextAddr)),
          (AssertEqual got expected msg (newErr w).2).2) := Prod.ext hout rfl
    have hb : assertEqualBody got expected msg rest w.nextErr (newErr w).2 =
        (Outcome.panics (Value.errCheck (Value.ptr w.nextAddr)),
          (AssertEqual got expected msg (newErr w).2).2) := by
      simp only [assertEqualBody, bind_apply]
      rw [hrun]
    rw [withHandle_of_errCheck _ w _ _ hb]
    refine ⟨rfl, by simp [storeErr], ?_⟩
    simpa [storeErr, stringsJoin_eq_intercalate, newErr] using hheap

theorem AssertEqual_handled_witness :
    (Value.int 1).comparable = true ∧ (Value.int 2).comparable = true ∧
      Value.int 1 ≠ Value.int 2 ∧
      (withHandle (assertEqualBody (Value.int 1) (Value.int 2) [] (fun _ => pure Value.nil))
        World.empty).2.heap World.empty.nextAddr =
        some { Msg := " ".intercalate [], Got := Value.int 1, Expected := Value.int 2 } :=
  ⟨by decide, by decide, by decide,
    ((AssertEqual_handled (Value.int 1) (Value.int 2) [] (fun _ => pure Value.nil) World.empty
      (by decide) (by decide)).2 (by decide)).2.2⟩

theorem AssertEqual_isPanic (got expected : Value) (msg : List String) (w : World)
    (hg : got.comparable = true) (he : expected.comparable = true) :
    (AssertEqual got expected msg w).1.isPanic = !decide (got = expected) := by
  by_cases h : got = expected
  · subst h
    simp [AssertEqual_of_eq got msg w hg, Outcome.isPanic]
  · simp [(AssertEqual_of_ne got expected msg w hg he h).1, Outcome.isPanic, h]

theorem Assert_isPanic (t : Bool) (msg : List String) (w : World) :
    (Assert t msg w).1.isPanic = !t := by
  cases t with
  | true => simp [Assert_true, Outcome.isPanic]
  | false => simp [Assert_false, Outcome.isPanic]

/-- C11, as the claim states it, fails: `AssertEqual(1, 2)` panics while
`Assert(1 != 2)` returns. -/
theorem AssertEqual_not_Assert_of_ne :
    (AssertEqual (Value.int 1) (Value.int 2) [] World.empty).1.isPanic = true ∧
      (assertOfNe (Value.int 1) (Value.int 2) [] World.empty).1.isPanic = false := by
  constructor
  · rw [AssertEqual_isPanic _ _ _ _ (by decide) (by decide)]
    decide
  · simp only [assertOfNe, goEq_of_comparable (Value.int 1) (Value.int 2) (by decide) (by decide)]
    rw [Assert_isPanic]
    decide

/-- C11, amended: for comparable `got` and `expected`, `AssertEqual` panics
exactly when `Assert(got == expected, msg...)` panics, that is when the two
differ; `Assert(got != expected, msg...)` panics in the opposite case, when
they are equal. -/
theorem AssertEqual_raises_iff_Assert_of_eq (got expected : Value) (msg : List String)
    (w : World) (hg : got.comparable = true) (he : expected.comparable = true) :
    (AssertEqual got expected msg w).1.isPanic = (assertOfEq got expected msg w).1.isPanic ∧
      ((AssertEqual got expected msg w).1.isPanic = true ↔ got ≠ expected) ∧
      ((assertOfNe got expected msg w).1.isPanic = true ↔ got = expected) := by
  have heq := goEq_of_comparable got expected hg he
  refine ⟨?_, ?_, ?_⟩
  · rw [AssertEqual_isPanic got expected msg w hg he]
    simp only [assertOfEq, heq]
    rw [Assert_isPanic]
  · rw [AssertEqual_isPanic got expected msg w hg he]
    simp
  · simp only [assertOfNe, heq]
    rw [Assert_isPanic]
    simp

theorem AssertEqual_raises_iff_Assert_of_eq_witness :
    (Value.str "hello").comparable = true ∧
      (AssertEqual (Value.str "hello") (Value.str "hello") [] World.empty).1.isPanic =
        (assertOfEq (Value.str "hello") (Value.str "hello") [] World.empty).1.isPanic :=
  ⟨by decide,
    (AssertEqual_raises_iff_Assert_of_eq (Value.str "hello") (Value.str "hello") []
      World.empty (by decide) (by decide)).1⟩

mutual
/-- Every value is deeply equal to itself. -/
theorem deepEqual_self : ∀ v : Value, deepEqual v v = true
  | .nil => by simp [deepEqual]
  | .bool _ => by simp [deepEqual]
  | .int _ => by simp [deepEqual]
  | .str _ => by simp [deepEqual]
  | .errorValue _ _ => by simp [deepEqual]
  | .ptr _ => by simp [deepEqual]
  | .errCheck e => by simp [deepEqual, deepEqual_self e]
  | .runtimeError _ => by simp [deepEqual]
  | .slice _ xs => by simp [deepEqual, deepEquals_self xs]
  | .struct _ xs => by simp [deepEqual, deepEquals_self xs]
/-- Every sequence is deeply equal to itself. -/
theorem deepEquals_self : ∀ vs : Values, deepEquals vs vs = true
  | .nil => by simp [deepEquals]
  | .cons v vs => by simp [deepEquals, deepEqual_self v, deepEquals_self vs]
end

theorem AssertDeepEqual_of_true (deq : World → Value → Value → Bool) (got expected : Value)
    (msg : List String) (w : World) (h : deq w got expected = true) :
    AssertDeepEqual deq got expected msg w = (Outcome.returns (), w) := by
  simp [AssertDeepEqual, h, assert]

theorem AssertDeepEqual_of_false (deq : World → Value → Value → Bool) (got expected : Value)
    (msg : List String) (w : World) (h : deq w got expected = false) :
    (AssertDeepEqual deq got expected msg w).1 =
        Outcome.panics (Value.errCheck (Value.ptr w.nextAddr)) ∧
      (AssertDeepEqual deq got expected msg w).2.heap w.nextAddr =
        some { Msg := stringsJoin msg " ", Got := got, Expected := expected } := by
  simp [AssertDeepEqual, h, assert, newErrAssertion, setExpected, setGot]

/-- C12: `AssertDeepEqual` panics exactly when `Assert(reflect.DeepEqual(got,
expected), msg...)` panics, that is when the two are not deeply equal; it
returns and leaves the world as it was when they are.  When it panics in a
function with a deferred `Handle`, the function returns a pointer to a new
`ErrAssertion` whose `Got` and `Expected` are `got` and `expected` whole and
whose `Msg` is the joined parts.  A value is deeply equal to itself, so the
assertion of a composite against an equal composite returns. -/
theorem AssertDeepEqual_raises_iff_not_deeply_equal (deq : World → Value → Value → Bool)
    (got expected : Value) (msg : List String) (w : World) :
    (AssertDeepEqual deq got expected msg w).1.isPanic =
        (Assert (deq w got expected) msg w).1.isPanic ∧
      ((AssertDeepEqual deq got expected msg w).1.isPanic = true ↔
        deq w got expected = false) ∧
      (deq w got expected = true →
        AssertDeepEqual deq got expected msg w = (Outcome.returns (), w)) ∧
      (∀ rest, deq (newErr w).2 got expected = false →
        (withHandle (assertDeepEqualBody deq got expected msg rest) w).1 =
            Outcome.returns (Value.ptr w.nextAddr) ∧
          (withHandle (assertDeepEqualBody deq got expected msg rest) w).2.errs w.nextErr =
            Value.ptr w.nextAddr ∧
          (withHandle (assertDeepEqualBody deq got expected msg rest) w).2.heap w.nextAddr =
            some { Msg := " ".intercalate msg, Got := got, Expected := expected }) ∧
      AssertDeepEqual (fun _ => deepEqual) got got msg w = (Outcome.returns (), w) := by
  have hpanic : (AssertDeepEqual deq got expected msg w).1.isPanic = !deq w got expected := by
    cases h : deq w got expected with
    | true => simp [AssertDeepEqual_of_true deq got expected msg w h, Outcome.isPanic]
    | false => simp [(AssertDeepEqual_of_false deq got expected msg w h).1, Outcome.isPanic]
  refine ⟨?_, ?_, AssertDeepEqual_of_true deq got expected msg w, ?_,
    AssertDeepEqual_of_true _ got got msg w (deepEqual_self got)⟩
  · rw [hpanic, Assert_isPanic]
  · rw [hpanic]
    simp
  · intro rest h
    obtain ⟨hout, hheap⟩ := AssertDeepEqual_of_false deq got expected msg (newErr w).2 h
    have hrun : AssertDeepEqual deq got expected msg (newErr w).2 =
        (Outcome.panics (Value.errCheck (Value.ptr w.nextAddr)),
          (AssertDeepEqual deq got expected msg (newErr w).2).2) := Prod.ext hout rfl
    have hb : assertDeepEqualBody deq got expected msg rest w.nextErr (newErr w).2 =
        (Outcome.panics (Value.errCheck (Value.ptr w.nextAddr)),
          (AssertDeepEqual deq got expected msg (newErr w).2).2) := by
      simp only [assertDeepEqualBody, bind_apply]
      rw [hrun]
    rw [withHandle_of_errCheck _ w _ _ hb]
    refine ⟨rfl, by simp [storeErr], ?_⟩
    simpa [storeErr, stringsJoin_eq_intercalate, newErr] using hheap

theorem AssertDeepEqual_raises_iff_not_deeply_equal_witness :
    deepEqual
        (structA 1 (Values.cons (Value.str "a") (Values.cons (Value.str "b") Values.nil)))
        (structA 1 (Values.cons (Value.str "a") (Values.cons (Value.str "b")
          (Values.cons (Value.str "c") Values.nil)))) = false ∧
      (withHandle (assertDeepEqualBody (fun _ => deepEqual)
          (structA 1 (Values.cons (Value.str "a") (Values.cons (Value.str "b") Values.nil)))
          (structA 1 (Values.cons (Value.str "a") (Values.cons (Value.str "b")
            (Values.cons (Value.str "c") Values.nil))))
          [] (fun _ => pure Value.nil)) World.empty).2.heap World.empty.nextAddr =
        some { Msg := " ".intercalate [],
               Got := structA 1
                 (Values.cons (Value.str "a") (Values.cons (Value.str "b") Values.nil)),
               Expected := structA 1
                 (Values.cons (Value.str "a") (Values.cons (Value.str "b")
                   (Values.cons (Value.str "c") Values.nil))) } :=
  ⟨by decide,
    ((AssertDeepEqual_raises_iff_not_deeply_equal (fun _ => deepEqual)
      (structA 1 (Values.cons (Value.str "a") (Values.cons (Value.str "b") Values.nil)))
      (structA 1 (Values.cons (Value.str "a") (Values.cons (Value.str "b")
        (Values.cons (Value.str "c") Values.nil))))
      [] World.empty).2.2.2.1 (fun _ => pure Value.nil) (by decide)).2.2⟩

/-- The test `assertDeepEqual_true`: the two composites are deeply equal and
the function returns nil. -/
theorem assertDeepEqual_true_example :
    (withHandle (assertDeepEqualBody (fun _ => deepEqual)
        (structA 1 (Values.cons (Value.str "a") (Values.cons (Value.str "b") Values.nil)))
        (structA 1 (Values.cons (Value.str "a") (Values.cons (Value.str "b") Values.nil)))
        [] (fun _ => pure Value.nil)) World.empty).1 = Outcome.returns Value.nil := by
  have hb : assertDeepEqualBody (fun _ => deepEqual)
      (structA 1 (Values.cons (Value.str "a") (Values.cons (Value.str "b") Values.nil)))
      (structA 1 (Values.cons (Value.str "a") (Values.cons (Value.str "b") Values.nil)))
      [] (fun _ => pure Value.nil) World.empty.nextErr (newErr World.empty).2 =
      (Outcome.returns Value.nil, (newErr World.empty).2) := by
    simp only [assertDeepEqualBody, bind_apply]
    rw [AssertDeepEqual_of_true _ _ _ _ _ (deepEqual_self _)]
    rfl
  rw [withHandle_of_returns _ _ _ _ hb]

/-- The format of `ErrAssertion.Error()` with its two operands. -/
theorem sprintf_assert_failed (fmtV : Value → String) (expected got : Value) :
    sprintf fmtV "assert failed (expected %v, got %v)" [expected, got] =
      "assert failed (expected " ++ fmtV expected ++ ", got " ++ fmtV got ++ ")" := by
  apply String.ext
  simp [sprintf, sprintfChars]

/-- C13: `r.Error()` is "assert failed (expected E, got G)" with the `%v`
renderings of `r.Expected` and `r.Got`, followed by ": " and `r.Msg` when
`r.Msg` is not empty and by nothing when it is.  For the record that
`assert(false, "this is a message", "with multiple parts")` builds, the text
is "assert failed (expected true, got false): this is a message with multiple
parts". -/
theorem ErrAssertion_Error_text (fmtV : Value → String) (r : ErrAssertion) :
    r.Error fmtV =
        "assert failed (expected " ++ fmtV r.Expected ++ ", got " ++ fmtV r.Got ++ ")" ++
          (if r.Msg = "" then "" else ": " ++ r.Msg) ∧
      ((assert false ["this is a message", "with multiple parts"] World.empty).2.heap 0).map
          (ErrAssertion.Error formatScalar) =
        some "assert failed (expected true, got false): this is a message with multiple parts" := by
  constructor
  · simp only [ErrAssertion.Error, sprintf_assert_failed]
    by_cases h : r.Msg = ""
    · simp [h]
    · rw [if_neg h]
      simp only [ne_eq, h, not_false_eq_true, if_true, String.append_assoc]
  · simp only [assert, newErrAssertion, World.empty]
    decide

/-! ## The logging handler -/

/-- On an error of the world the call `err.Error()` returns its text and
leaves the world as it was. -/
theorem callError_of_isError (fmtV : Value → String) (w : World) :
    ∀ e : Value, Value.isError w e = true →
      callError fmtV e w = (Outcome.returns (errorText fmtV w e), w)
  | .errorValue _ _, _ => rfl
  | .runtimeError _, _ => rfl
  | .errCheck e, h => by
    have ih := callError_of_isError fmtV w e (by simpa [Value.isError] using h)
    have h1 : callError fmtV (Value.errCheck e) w =
        (Outcome.returns ("try.errCheck: " ++ errorText fmtV w e ++
          " (Note: This panic may be raised by a call to try.Check without " ++
          "a defer try.Handle(&err) before it, which may be a wrong usage."), w) := by
      simp only [callError, bind_apply, ih, pure_apply]
    simp only [errorText, h1]
  | .ptr a, h => by
    cases hh : w.heap a with
    | none => simp [Value.isError, hh] at h
    | some r => simp [callError, errorText, hh]
  | .nil, h => by simp [Value.isError] at h
  | .bool _, h => by simp [Value.isError] at h
  | .int _, h => by simp [Value.isError] at h
  | .str _, h => by simp [Value.isError] at h
  | .slice _ _, h => by simp [Value.isError] at h
  | .struct _ _, h => by simp [Value.isError] at h

theorem isError_ne_nil (w : World) (e : Value) (h : Value.isError w e = true) :
    e ≠ Value.nil := by
  intro hn
  subst hn
  simp [Value.isError] at h

/-- The closure of `Log` when the logger is not enabled at the level. -/
theorem logFunc1_disabled (fmtV : Value → String) (opts : logErrorOptions) (l : Logger)
    (e : Value) (w : World) (hl : opts.Logger = some l)
    (hen : l.enabled opts.Level = false) :
    logFunc1 fmtV opts e w = (Outcome.returns e, w) := by
  simp [logFunc1, hl, hen]

/-- The closure of `Log` when the logger is enabled at the level: one record
goes to the output of the logger. -/
theorem logFunc1_enabled (fmtV : Value → String) (opts : logErrorOptions) (l : Logger)
    (e : Value) (w : World) (hl : opts.Logger = some l)
    (hen : l.enabled opts.Level = true) (he : Value.isError w e = true) :
    logFunc1 fmtV opts e w =
      (Outcome.returns e,
        { w with outputs := fun i =>
            if i = l.out then
              w.outputs i ++
                [{ level := opts.Level, msg := opts.Msg, pc := (w.stack.drop 1).head?,
                   attrs := l.attrs ++ [("err", errorText fmtV w e)] }]
            else w.outputs i }) := by
  simp [logFunc1, hl, hen, runtimeCallers, callError_of_isError fmtV w e he, handlerHandle,
    Logger.With, NewRecord]

/-- The closure of `Log` returns the error it is given, enabled or not. -/
theorem logFunc1_returns (fmtV : Value → String) (opts : logErrorOptions) (l : Logger)
    (e : Value) (w : World) (hl : opts.Logger = some l) (he : Value.isError w e = true) :
    (logFunc1 fmtV opts e w).1 = Outcome.returns e := by
  cases hen : l.enabled opts.Level with
  | false => rw [logFunc1_disabled fmtV opts l e w hl hen]
  | true => rw [logFunc1_enabled fmtV opts l e w hl hen he]

/-- C14, as the claim states it, fails: with the option list
`[WithLogger(nil)]` the handler of `Log` does not return the error it is given,
it panics on the nil logger, and `Check(e, Log(WithLogger(nil)))` panics with
that runtime error instead of `errCheck{e}`. -/
theorem Log_nil_logger_does_not_return :
    (Log formatScalar [WithLogger none] World.empty (Value.errorValue 0 "there is a error")
        World.empty).1 = Outcome.panics (Value.runtimeError "invalid memory address") ∧
      (Log formatScalar [WithLogger none] World.empty (Value.errorValue 0 "there is a error")
        World.empty).1 ≠ Outcome.returns (Value.errorValue 0 "there is a error") ∧
      (Check (Value.errorValue 0 "there is a error") [Log formatScalar [WithLogger none]
        World.empty] World.empty).1 =
        Outcome.panics (Value.runtimeError "invalid memory address") ∧
      (Check (Value.errorValue 0 "there is a error") [Log formatScalar [WithLogger none]
        World.empty] World.empty).1 ≠
        Outcome.panics (Value.errCheck (Value.errorValue 0 "there is a error")) := by
  refine ⟨?_, ?_, ?_, ?_⟩ <;> decide

/-- C14, amended: for every option list whose configured logger is not the nil
pointer and every error `e`, the handler of `Log(options...)` returns `e`
itself, enabled at the configured level or not, so `Check(e, Log(options...))`
still panics with `errCheck{e}`.  When the configured logger is the nil pointer
the handler panics on it. -/
theorem Log_returns_error_unchanged (fmtV : Value → String) (options : List LogOption)
    (w0 w : World) (e : Value) (he : Value.isError w e = true) :
    (∀ l, (applyOptions (defaultLogErrorOptions w0) options).Logger = some l →
        (Log fmtV options w0 e w).1 = Outcome.returns e ∧
          (Check e [Log fmtV options w0] w).1 = Outcome.panics (Value.errCheck e)) ∧
      ((applyOptions (defaultLogErrorOptions w0) options).Logger = none →
        Log fmtV options w0 e w =
          (Outcome.panics (Value.runtimeError "invalid memory address"), w)) := by
  refine ⟨?_, ?_⟩
  · intro l hl
    have hret := logFunc1_returns fmtV _ l e w hl he
    refine ⟨hret, ?_⟩
    have hne := isError_ne_nil w e he
    simp only [Check_cons, if_neg hne, bind_apply, Log]
    rcases hrun : logFunc1 fmtV (applyOptions (defaultLogErrorOptions w0) options) e w
      with ⟨o, w1⟩
    rw [hrun] at hret
    simp only at hret
    subst hret
    simp [hne]
  · intro hl
    simp [Log, logFunc1, hl]

theorem Log_returns_error_unchanged_witness :
    Value.isError World.empty (Value.errorValue 0 "there is a error") = true ∧
      (Check (Value.errorValue 0 "there is a error")
        [Log formatScalar [WithMsg "check error failed", WithLevel LevelWarn] World.empty]
        World.empty).1 =
        Outcome.panics (Value.errCheck (Value.errorValue 0 "there is a error")) :=
  ⟨rfl,
    ((Log_returns_error_unchanged formatScalar
      [WithMsg "check error failed", WithLevel LevelWarn] World.empty World.empty
      (Value.errorValue 0 "there is a error") rfl).1 World.empty.defaultLogger rfl).2⟩

theorem getLast?_getD_cons {α : Type} (l : List α) :
    ∀ a d : α, ((a :: l).getLast?).getD d = (l.getLast?).getD a := by
  induction l with
  | nil => intro a d; simp
  | cons b l ih =>
    intro a d
    rw [List.getLast?_cons_cons, ih b d, ih b a]

/-- The loop of `Log` is the left fold of the options over the start value. -/
theorem applyOptions_eq_foldl (options : List LogOption) :
    ∀ opts, applyOptions opts options = options.foldl (fun c f => f c) opts := by
  induction options with
  | nil => intro opts; rfl
  | cons o options ih => intro opts; simp [applyOptions, ih]

theorem applyOptions_Logger (os : List OptionSpec) :
    ∀ c : logErrorOptions,
      (applyOptions c (os.map OptionSpec.toLogOption)).Logger =
        ((os.filterMap OptionSpec.setsLogger).getLast?).getD c.Logger := by
  induction os with
  | nil => intro c; simp [applyOptions]
  | cons o os ih =>
    intro c
    simp only [List.map_cons, applyOptions, ih]
    cases o with
    | logger l =>
      rw [List.filterMap_cons_some (rfl : OptionSpec.setsLogger (OptionSpec.logger l) = some l),
        getLast?_getD_cons]
      rfl
    | level n => simp [OptionSpec.setsLogger, OptionSpec.toLogOption, WithLevel]
    | msg m => simp [OptionSpec.setsLogger, OptionSpec.toLogOption, WithMsg]

theorem applyOptions_Level (os : List OptionSpec) :
    ∀ c : logErrorOptions,
      (applyOptions c (os.map OptionSpec.toLogOption)).Level =
        ((os.filterMap OptionSpec.setsLevel).getLast?).getD c.Level := by
  induction os with
  | nil => intro c; simp [applyOptions]
  | cons o os ih =>
    intro c
    simp only [List.map_cons, applyOptions, ih]
    cases o with
    | logger l => simp [OptionSpec.setsLevel, OptionSpec.toLogOption, WithLogger]
    | level n =>
      rw [List.filterMap_cons_some (rfl : OptionSpec.setsLevel (OptionSpec.level n) = some n),
        getLast?_getD_cons]
      rfl
    | msg m => simp [OptionSpec.setsLevel, OptionSpec.toLogOption, WithMsg]

theorem applyOptions_Msg (os : List OptionSpec) :
    ∀ c : logErrorOptions,
      (applyOptions c (os.map OptionSpec.toLogOption)).Msg =
        ((os.filterMap OptionSpec.setsMsg).getLast?).getD c.Msg := by
  induction os with
  | nil => intro c; simp [applyOptions]
  | cons o os ih =>
    intro c
    simp only [List.map_cons, applyOptions, ih]
    cases o with
    | logger l => simp [OptionSpec.setsMsg, OptionSpec.toLogOption, WithLogger]
    | level n => simp [OptionSpec.setsMsg, OptionSpec.toLogOption, WithLevel]
    | msg m =>
      rw [List.filterMap_cons_some (rfl : OptionSpec.setsMsg (OptionSpec.msg m) = some m),
        getLast?_getD_cons]
      rfl

/-- C15: the configuration of `Log(options...)` is the default
`{slog.Default(), slog.LevelError, "try got an error"}` with the options
applied in the order given: each of the fields `Logger`, `Level` and `Msg` has
the value of the last option that sets it, and the default value when none
does; options that set different fields commute. -/
theorem Log_options_last_wins (os : List OptionSpec) (w : World) :
    (applyOptions (defaultLogErrorOptions w) (os.map OptionSpec.toLogOption)).Logger =
        ((os.filterMap OptionSpec.setsLogger).getLast?).getD (some w.defaultLogger) ∧
      (applyOptions (defaultLogErrorOptions w) (os.map OptionSpec.toLogOption)).Level =
        ((os.filterMap OptionSpec.setsLevel).getLast?).getD LevelError ∧
      (applyOptions (defaultLogErrorOptions w) (os.map OptionSpec.toLogOption)).Msg =
        ((os.filterMap OptionSpec.setsMsg).getLast?).getD "try got an error" ∧
      (∀ l n c, WithLogger l (WithLevel n c) = WithLevel n (WithLogger l c)) ∧
      (∀ l m c, WithLogger l (WithMsg m c) = WithMsg m (WithLogger l c)) ∧
      (∀ n m c, WithLevel n (WithMsg m c) = WithMsg m (WithLevel n c)) ∧
      (∀ fmtV, Log fmtV (os.map OptionSpec.toLogOption) w =
        logFunc1 fmtV
          ((os.map OptionSpec.toLogOption).foldl (fun c f => f c) (defaultLogErrorOptions w))) :=
  ⟨applyOptions_Logger os _, applyOptions_Level os _, applyOptions_Msg os _,
    fun _ _ _ => rfl, fun _ _ _ => rfl, fun _ _ _ => rfl,
    fun fmtV => by rw [Log, applyOptions_eq_foldl]⟩

/-- The options of the test `logWithMsgWithLevel`: both take effect. -/
theorem logWithMsgWithLevel_options_example :
    (applyOptions (defaultLogErrorOptions World.empty)
        [WithMsg "check error failed", WithLevel LevelWarn]).Level = LevelWarn ∧
      (applyOptions (defaultLogErrorOptions World.empty)
        [WithMsg "check error failed", WithLevel LevelWarn]).Msg = "check error failed" ∧
      (applyOptions (defaultLogErrorOptions World.empty)
        [WithLevel LevelInfo, WithMsg "a", WithLevel LevelWarn]).Level = LevelWarn :=
  ⟨rfl, rfl, rfl⟩

/-- C16, as the claim states it, fails: with the two options of the test
`logWithMsgWithLevel` the level of the configuration is the one the second
option sets, not the one the first option alone leaves. -/
theorem Log_not_only_first_option :
    (applyOptions (defaultLogErrorOptions World.empty)
        [WithMsg "check error failed", WithLevel LevelWarn]).Level ≠
      (applyOptions (defaultLogErrorOptions World.empty)
        [WithMsg "check error failed"]).Level := by
  decide

/-- C16, amended: `Log(options...)` uses the default options when `options` is
empty, and otherwise applies every element of `options` to them in the order
given, the first one first. -/
theorem Log_applies_every_option (fmtV : Value → String) (w : World) :
    Log fmtV [] w = logFunc1 fmtV (defaultLogErrorOptions w) ∧
      (∀ o rest, Log fmtV (o :: rest) w =
        logFunc1 fmtV (rest.foldl (fun c f => f c) (o (defaultLogErrorOptions w)))) ∧
      (∀ o rest, applyOptions (defaultLogErrorOptions w) (o :: rest) =
        rest.foldl (fun c f => f c) (o (defaultLogErrorOptions w))) := by
  refine ⟨rfl, ?_, ?_⟩
  · intro o rest
    rw [Log, applyOptions, applyOptions_eq_foldl]
  · intro o rest
    rw [applyOptions, applyOptions_eq_foldl]

/-- C17: with the output of a logger a list of records, the handler of
`Log(WithLogger(l), WithLevel(W), WithMsg(M))`, run on an error `e`, appends
exactly one record to the output of `l` when `l` is enabled at `W`; the record
has level `W`, message `M` and, after the attributes of `l`, the attribute
"err" with the text `e.Error()` returns.  When `l` is not enabled at `W` the
output of `l` stays as it was.  No other output changes in either case. -/
theorem Log_writes_one_record (fmtV : Value → String) (l : Logger) (W : Int) (M : String)
    (w0 w : World) (e : Value) (he : Value.isError w e = true) :
    (l.enabled W = true →
        callError fmtV e w = (Outcome.returns (errorText fmtV w e), w) ∧
          ∃ r : LogRecord,
            (Log fmtV [WithLogger (some l), WithLevel W, WithMsg M] w0 e w).2.outputs l.out =
                w.outputs l.out ++ [r] ∧
              r.level = W ∧ r.msg = M ∧
              r.attrs = l.attrs ++ [("err", errorText fmtV w e)]) ∧
      (l.enabled W = false →
        (Log fmtV [WithLogger (some l), WithLevel W, WithMsg M] w0 e w).2.outputs l.out =
          w.outputs l.out) ∧
      (∀ j, j ≠ l.out →
        (Log fmtV [WithLogger (some l), WithLevel W, WithMsg M] w0 e w).2.outputs j =
          w.outputs j) := by
  have hopts : applyOptions (defaultLogErrorOptions w0)
      [WithLogger (some l), WithLevel W, WithMsg M] =
      { Logger := some l, Level := W, Msg := M } := rfl
  refine ⟨?_, ?_, ?_⟩
  · intro hen
    refine ⟨callError_of_isError fmtV w e he, ?_⟩
    refine ⟨{ level := W, msg := M, pc := (w.stack.drop 1).head?,
              attrs := l.attrs ++ [("err", errorText fmtV w e)] }, ?_, rfl, rfl, rfl⟩
    rw [Log, hopts, logFunc1_enabled fmtV _ l e w rfl hen he]
    simp
  · intro hen
    rw [Log, hopts, logFunc1_disabled fmtV _ l e w rfl hen]
  · intro j hj
    cases hen : l.enabled W with
    | false => rw [Log, hopts, logFunc1_disabled fmtV _ l e w rfl hen]
    | true =>
      rw [Log, hopts, logFunc1_enabled fmtV _ l e w rfl hen he]
      simp [hj]

theorem Log_writes_one_record_witness :
    Value.isError World.empty (Value.errorValue 0 "there is a error") = true ∧
      (∀ j, j ≠ 1 →
        (Log formatScalar
          [WithLogger (some { enabled := fun level => decide (LevelWarn ≤ level), out := 1,
                              attrs := [] }),
            WithLevel LevelWarn, WithMsg "this record should be written to custom logger"]
          World.empty (Value.errorValue 0 "there is a error") World.empty).2.outputs j =
          World.empty.outputs j) :=
  ⟨rfl,
    (Log_writes_one_record formatScalar
      { enabled := fun level => decide (LevelWarn ≤ level), out := 1, attrs := [] }
      LevelWarn "this record should be written to custom logger" World.empty World.empty
      (Value.errorValue 0 "there is a error") rfl).2.2⟩

/-- The test `logWithCustomLogger`: the custom logger, enabled from
`slog.LevelWarn` on, gets nothing at `slog.LevelInfo` and one record at
`slog.LevelWarn`; the default logger gets nothing. -/
theorem logWithCustomLogger_example :
    (Log formatScalar
        [WithLogger (some { enabled := fun level => decide (LevelWarn ≤ level), out := 1,
                            attrs := [] }),
          WithMsg "this record should not be enabled", WithLevel LevelInfo]
        World.empty (Value.errorValue 0 "there is a error") World.empty).2.outputs 1 = [] ∧
      ((Log formatScalar
        [WithLogger (some { enabled := fun level => decide (LevelWarn ≤ level), out := 1,
                            attrs := [] }),
          WithMsg "this record should be written to custom logger", WithLevel LevelWarn]
        World.empty (Value.errorValue 0 "there is a error") World.empty).2.outputs 1).map
          (fun r => (r.level, r.msg, r.attrs)) =
        [(LevelWarn, "this record should be written to custom logger",
          [("err", "there is a error")])] ∧
      (Log formatScalar
        [WithLogger (some { enabled := fun level => decide (LevelWarn ≤ level), out := 1,
                            attrs := [] }),
          WithMsg "this record should be written to custom logger", WithLevel LevelWarn]
        World.empty (Value.errorValue 0 "there is a error") World.empty).2.outputs 0 = [] := by
  refine ⟨?_, ?_, ?_⟩ <;> decide

/-- C18: the code at a concrete stack.  The function `mayFail`, called by
`main`, calls `Check(e, Log())`; the record the handler writes carries the
frame of `main`, the caller of `mayFail`, because `runtime.Callers(4, ...)`
skips four frames; skipping three frames gives the frame of `mayFail`. -/
theorem Log_records_frame_of_callers_caller :
    ((Log formatScalar [] World.empty (Value.errorValue 0 "there is a error")
        { World.empty with stack := [Frame.fn "mayFail", Frame.fn "main"] }).2.outputs 0).map
          (fun r => r.pc) = [some (Frame.fn "main")] ∧
      (runtimeCallers 4
        { World.empty with stack := [Frame.fn "mayFail", Frame.fn "main"] }).1 =
          Outcome.returns [Frame.fn "main"] ∧
      (runtimeCallers 3
        { World.empty with stack := [Frame.fn "mayFail", Frame.fn "main"] }).1 =
          Outcome.returns [Frame.fn "mayFail", Frame.fn "main"] := by
  refine ⟨?_, ?_, ?_⟩ <;> decide

/-- The program counter of the record the handler of `Log` writes is the
second frame of the stack of the function that called `Check`. -/
theorem logFunc1_pc (fmtV : Value → String) (opts : logErrorOptions) (l : Logger)
    (e : Value) (w : World) (hl : opts.Logger = some l)
    (hen : l.enabled opts.Level = true) (he : Value.isError w e = true) :
    ((logFunc1 fmtV opts e w).2.outputs l.out).map (fun r => r.pc) =
      (w.outputs l.out).map (fun r => r.pc) ++ [(w.stack.drop 1).head?] := by
  rw [logFunc1_enabled fmtV opts l e w hl hen he]
  simp

/-- C19: on a panic raised by `Check`, `Handle(nil)` returns and leaves the
world as it was; a function that defers `Handle(nil)` and calls `Check(e)`
returns normally, its result is the value its named result had and `e` is
stored nowhere. -/
theorem Handle_nil_drops_error (e : Value) (he : e ≠ Value.nil) :
    (∀ w, Handle none (some (Value.errCheck e)) w = (Outcome.returns (), w)) ∧
      (∀ prior rest w,
        withHandleNil (checkBody prior e [] rest) w =
          (Outcome.returns prior, (storeErr w.nextErr prior (newErr w).2).2)) := by
  refine ⟨fun w => rfl, ?_⟩
  intro prior rest w
  have hb : checkBody prior e [] rest w.nextErr (newErr w).2 =
      (Outcome.panics (Value.errCheck e), (storeErr w.nextErr prior (newErr w).2).2) := by
    simp [checkBody, storeErr, he]
  simp only [withHandleNil, callDeferred]
  simp only [newErr] at hb ⊢
  rw [hb]
  simp [runDeferred, Handle, recover, storeErr]

theorem Handle_nil_drops_error_witness :
    Value.errorValue 0 "there is a error" ≠ Value.nil ∧
      (withHandleNil (checkBody Value.nil (Value.errorValue 0 "there is a error") []
        (fun _ => pure Value.nil)) World.empty).1 = Outcome.returns Value.nil :=
  ⟨by decide,
    congrArg Prod.fst
      ((Handle_nil_drops_error (Value.errorValue 0 "there is a error") (by decide)).2
        Value.nil (fun _ => pure Value.nil) World.empty)⟩

/-- C20: when an outer function defers `Handle(&err)` and calls an inner
function that has no deferred call and calls `Check(e)` on a non-nil `e`, the
inner function panics instead of returning, the rest of the body of the outer
function does not run, and the outer function returns `e` with its named
result holding `e`. -/
theorem Check_inner_Handle_outer (e : Value) (he : e ≠ Value.nil) :
    (∀ prior innerRest w,
        (withoutHandle (checkBody prior e [] innerRest) w).1 =
          Outcome.panics (Value.errCheck e)) ∧
      (∀ prior innerRest rest w,
        (withHandle (outerBody prior e innerRest rest) w).1 = Outcome.returns e ∧
          (withHandle (outerBody prior e innerRest rest) w).2.errs w.nextErr = e) ∧
      (∀ prior innerRest rest1 rest2 w,
        withHandle (outerBody prior e innerRest rest1) w =
          withHandle (outerBody prior e innerRest rest2) w) := by
  have hinner : ∀ prior innerRest w,
      withoutHandle (checkBody prior e [] innerRest) w =
        (Outcome.panics (Value.errCheck e), (storeErr w.nextErr prior (newErr w).2).2) := by
    intro prior innerRest w
    simp [withoutHandle, newErr, checkBody, storeErr, he]
  have houter : ∀ prior innerRest rest w,
      outerBody prior e innerRest rest w.nextErr (newErr w).2 =
        (Outcome.panics (Value.errCheck e),
          (storeErr (newErr w).2.nextErr prior (newErr (newErr w).2).2).2) := by
    intro prior innerRest rest w
    simp only [outerBody, bind_apply]
    rw [hinner]
  refine ⟨?_, ?_, ?_⟩
  · intro prior innerRest w
    rw [hinner]
  · intro prior innerRest rest w
    rw [withHandle_of_errCheck _ w _ e (houter prior innerRest rest w)]
    simp [storeErr]
  · intro prior innerRest rest1 rest2 w
    rw [withHandle_of_errCheck _ w _ e (houter prior innerRest rest1 w),
      withHandle_of_errCheck _ w _ e (houter prior innerRest rest2 w)]

theorem Check_inner_Handle_outer_witness :
    Value.errorValue 0 "there is a error" ≠ Value.nil ∧
      (withHandle (outerBody Value.nil (Value.errorValue 0 "there is a error")
        (fun _ => pure Value.nil) (fun _ => throwPanic (Value.str "the rest ran")))
        World.empty).1 = Outcome.returns (Value.errorValue 0 "there is a error") :=
  ⟨by decide,
    ((Check_inner_Handle_outer (Value.errorValue 0 "there is a error") (by decide)).2.1
      Value.nil (fun _ => pure Value.nil) (fun _ => throwPanic (Value.str "the rest ran"))
      World.empty).1⟩

end Try
